import Mathlib

/-!
Shallow embedding of the message-board server in src/server.js: the two
database tables, the SQL statements the handlers issue, and the request
handlers for POST /reflect/:messageId and POST /share, together with
getClientIp, seedInitialData and initializeDatabase.  Machine integers are
modeled as Nat; created_at timestamps are not modeled since no claim
depends on them.
-/

/-- A row of the messages table (server.js lines 49-58). -/
structure Message where
  id : Nat
  text : String
  category : String
  author : String
  reflection_count : Nat
deriving Repr, DecidableEq

/-- A row of the reflections table (server.js lines 61-69). -/
structure Reflection where
  id : Nat
  message_id : Nat
  user_ip : String
deriving Repr, DecidableEq

/-- The database state: both tables plus the two SERIAL sequences. -/
structure DB where
  messages : List Message
  reflections : List Reflection
  nextMessageId : Nat
  nextReflectionId : Nat
deriving Repr, DecidableEq

/-- A freshly created database, as after CREATE TABLE with no rows. -/
def emptyDB : DB :=
  { messages := [], reflections := [], nextMessageId := 1, nextReflectionId := 1 }

/-- The SELECT of server.js line 241: all reflections rows for the given
message_id and user_ip pair. -/
def selectReflection (mid : Nat) (ip : String) (db : DB) : List Reflection :=
  db.reflections.filter (fun r => r.message_id == mid && r.user_ip == ip)

/-- Whether a messages row with the given id exists. -/
def hasMessage (mid : Nat) (db : DB) : Bool :=
  db.messages.any (fun m => m.id == mid)

/-- Errors a statement can raise.  The unique and foreign-key violations come
from the constraints declared in initializeDatabase, server.js lines 61-69. -/
inductive SqlError
  | uniqueViolation
  | fkViolation
  | otherFailure
deriving Repr, DecidableEq

/-- The INSERT of server.js lines 252-255 into reflections: it fails when
message_id does not reference a messages row (the REFERENCES clause), or when
a row with the same message_id and user_ip exists (the UNIQUE clause);
otherwise it appends the new row and advances the sequence. -/
def insertReflection (mid : Nat) (ip : String) (db : DB) : Except SqlError DB :=
  if !hasMessage mid db then .error .fkViolation
  else if db.reflections.any (fun r => r.message_id == mid && r.user_ip == ip) then
    .error .uniqueViolation
  else .ok { db with
    reflections :=
      db.reflections ++ [{ id := db.nextReflectionId, message_id := mid, user_ip := ip }],
    nextReflectionId := db.nextReflectionId + 1 }

/-- The UPDATE of server.js lines 257-260: add one to reflection_count of every
messages row whose id matches. -/
def updateIncrement (mid : Nat) (db : DB) : DB :=
  { db with messages := db.messages.map (fun m =>
      if m.id == mid then { m with reflection_count := m.reflection_count + 1 } else m) }

/-- The SELECT of server.js lines 264-267 read off as on line 271: the
reflection_count of the first matching row, defaulting to zero when no row
matches. -/
def counterOf (mid : Nat) (db : DB) : Nat :=
  ((db.messages.find? (fun m => m.id == mid)).map Message.reflection_count).getD 0

/-- The three JSON responses of POST /reflect/:messageId: success false with an
already-reflected note, success true with a count, and the 500 database-error
answer of the catch block. -/
inductive ReflectResult
  | alreadyReflected
  | registered (count : Nat)
  | dbError
deriving Repr, DecidableEq

/-- HTTP status of each response: res.json defaults to 200, the catch block
sets 500 (server.js line 277). -/
def statusOf : ReflectResult → Nat
  | .alreadyReflected => 200
  | .registered _ => 200
  | .dbError => 500

/-- The catch block of POST /reflect/:messageId, server.js lines 274-278: it
rolls the transaction back and answers 500 no matter which error was raised. -/
def catchHandler (_ : SqlError) : ReflectResult :=
  .dbError

/-- POST /reflect/:messageId, server.js lines 236-279, one request run to
completion in isolation.  The pre-check happens outside the transaction; the
INSERT and UPDATE run inside BEGIN and COMMIT, and any error sends control to
the catch block, whose ROLLBACK leaves the database unchanged. -/
def registerReflection (messageId : Nat) (userIp : String) (db : DB) :
    ReflectResult × DB :=
  if (selectReflection messageId userIp db).length > 0 then
    (.alreadyReflected, db)
  else
    match insertReflection messageId userIp db with
    | .error e => (catchHandler e, db)
    | .ok db1 =>
      let db2 := updateIncrement messageId db1
      (.registered (counterOf messageId db2), db2)

/-- The three redirects POST /share can answer with. -/
inductive ShareResult
  | redirectShareEmpty
  | redirectSuccess
  | redirectShareDb
deriving Repr, DecidableEq

/-- An INSERT into messages with an explicit reflection_count; the
three-column INSERT of POST /share passes zero, the DEFAULT of the schema. -/
def insertMessage (t c a : String) (count : Nat) (db : DB) : DB :=
  { db with
    messages := db.messages ++
      [{ id := db.nextMessageId, text := t, category := c, author := a,
         reflection_count := count }],
    nextMessageId := db.nextMessageId + 1 }

/-- The JavaScript string trim: drop whitespace from both ends.  Implemented
over the character list so that the kernel can evaluate it. -/
def jsTrim (s : String) : String :=
  ⟨((s.data.dropWhile Char.isWhitespace).reverse.dropWhile Char.isWhitespace).reverse⟩

/-- POST /share, server.js lines 216-234.  Absent form fields are none; the
destructuring defaults fill category and author; a falsy message (absent or
the empty string) or one whose trim has length zero is rejected; otherwise the
trimmed text is stored, with the trimmed author replaced by Anonymous when it
is empty. -/
def postShare (message category author : Option String) (db : DB) :
    ShareResult × DB :=
  let category := category.getD "Honest Message"
  let author := author.getD "Anonymous"
  match message with
  | none => (.redirectShareEmpty, db)
  | some s =>
    if s = "" then (.redirectShareEmpty, db)
    else if (jsTrim s).length = 0 then (.redirectShareEmpty, db)
    else
      (.redirectSuccess,
       insertMessage (jsTrim s) category
         (if jsTrim author = "" then "Anonymous" else jsTrim author) 0 db)

/-- JavaScript truthiness of an optional string: undefined and the empty
string are falsy. -/
def jsTruthy : Option String → Bool
  | none => false
  | some s => s ≠ ""

/-- The JavaScript or-else operator on optional strings. -/
def jsOr (a b : Option String) : Option String :=
  if jsTruthy a then a else b

/-- Splitting of a character list at a separator, mirroring the JavaScript
string split: a trailing separator yields a trailing empty piece, and the
empty string yields one empty piece. -/
def jsSplitAux (sep : Char) : List Char → List Char → List (List Char)
  | [], acc => [acc.reverse]
  | c :: cs, acc =>
    if c = sep then acc.reverse :: jsSplitAux sep cs []
    else jsSplitAux sep cs (c :: acc)

/-- The JavaScript string split on a single-character separator. -/
def jsSplit (sep : Char) (s : String) : List String :=
  (jsSplitAux sep s.data []).map List.asString

/-- getClientIp, server.js lines 176-180: piece zero of the header value split
at commas when that piece is truthy, or-else req.ip, or-else the literal
unknown. -/
def getClientIp (xff : Option String) (reqIp : Option String) : String :=
  let firstHop := xff.map (fun h => (jsSplit (Char.ofNat 44) h).headD "")
  (jsOr (jsOr firstHop reqIp) (some "unknown")).getD "unknown"

/-- seedInitialData, server.js lines 84-125: five messages inserted with
nonzero reflection_count values and no reflections rows at all. -/
def seedInitialData (db : DB) : DB :=
  let db1 := insertMessage
    "Today I admitted I\x27ve been pretending to be okay when I\x27m not. There\x27s power in saying \x27I\x27m struggling\x27 out loud."
    "Vulnerability" "Anonymous" 7 db
  let db2 := insertMessage
    "Growth isn\x27t about becoming someone new, but uncovering who you\x27ve always been beneath the layers of expectation."
    "Personal Growth" "Jamie" 12 db1
  let db3 := insertMessage
    "I\x27m learning that boundaries aren\x27t walls to keep people out, but gates that let me choose who gets to be in my garden."
    "Personal Growth" "Taylor" 9 db2
  let db4 := insertMessage
    "Grateful for: the quiet moment this morning with my coffee, the sun through the window, and nothing urgent demanding my attention."
    "Gratitude" "Sam" 5 db3
  insertMessage
    "What if we measured success by how often we choose courage over comfort?"
    "Question to Ponder" "Anonymous" 15 db4

/-- initializeDatabase, server.js lines 46-81: create the tables, then seed
exactly when SELECT COUNT(*) FROM messages returns zero. -/
def initializeDatabase (db : DB) : DB :=
  if db.messages.length = 0 then seedInitialData db else db

/-- Number of ledger rows for one message id. -/
def ledgerCount (mid : Nat) (db : DB) : Nat :=
  (db.reflections.filter (fun r => r.message_id == mid)).length

/-- The counter invariant of the spec: every reflection_count equals the
ledger count for that message. -/
def counterInvariant (db : DB) : Bool :=
  db.messages.all (fun m => m.reflection_count == ledgerCount m.id db)

/-! ### Interleaving model of two concurrent POST /reflect requests

Two requests for the same message and voter run against one shared committed
database, as in the concurrency discussion of the spec.  Each request runs
the statements of server.js lines 236-279 in order.  Reads (the pre-check and
the constraint check) see committed state only; a ledger INSERT that
conflicts with the other sessions uncommitted row blocks, stepping to no
effect, until the holder commits, after which it raises the uniqueness
violation; COMMIT publishes the pending row together with the pending counter
increment, and the post-commit SELECT then reads the committed counter. -/

/-- Program counter of one in-flight request: before the pre-check SELECT,
before the ledger INSERT, before the counter UPDATE, before COMMIT, and
finished. -/
inductive SessPC
  | atCheck
  | atInsert
  | atUpdate
  | atCommit
  | finished
deriving Repr, DecidableEq

/-- One in-flight request: its program counter and, once finished, its
response. -/
structure Sess where
  pc : SessPC
  res : Option ReflectResult
deriving Repr, DecidableEq

/-- Global configuration: the committed database, the two sessions, and one
flag per session recording an uncommitted ledger row held by its open
transaction. -/
structure Conf where
  db : DB
  a : Sess
  b : Sess
  aPend : Bool
  bPend : Bool
deriving Repr, DecidableEq

/-- One step of a single session against the committed database.  pend is
this sessions uncommitted-row flag, otherPend the other sessions.  Returns
the new session, the new pend flag, and the new committed database. -/
def sessStep (M : Nat) (v : String) (db : DB) (s : Sess)
    (pend otherPend : Bool) : Sess × Bool × DB :=
  match s.pc with
  | .atCheck =>
    if (selectReflection M v db).length > 0 then
      ({ pc := .finished, res := some .alreadyReflected }, pend, db)
    else ({ s with pc := .atInsert }, pend, db)
  | .atInsert =>
    match insertReflection M v db with
    | .error e => ({ pc := .finished, res := some (catchHandler e) }, pend, db)
    | .ok _ =>
      if otherPend then (s, pend, db)
      else ({ s with pc := .atUpdate }, true, db)
  | .atUpdate => ({ s with pc := .atCommit }, pend, db)
  | .atCommit =>
    let db1 := { db with
      reflections := db.reflections ++
        [{ id := db.nextReflectionId, message_id := M, user_ip := v }],
      nextReflectionId := db.nextReflectionId + 1 }
    let db2 := updateIncrement M db1
    ({ pc := .finished, res := some (.registered (counterOf M db2)) }, false, db2)
  | .finished => (s, pend, db)

/-- Scheduler step: true steps session a, false steps session b. -/
def step (M : Nat) (v : String) (who : Bool) (c : Conf) : Conf :=
  match who with
  | true =>
    let r := sessStep M v c.db c.a c.aPend c.bPend
    { db := r.2.2, a := r.1, b := c.b, aPend := r.2.1, bPend := c.bPend }
  | false =>
    let r := sessStep M v c.db c.b c.bPend c.aPend
    { db := r.2.2, a := c.a, b := r.1, aPend := c.aPend, bPend := r.2.1 }

/-- Initial configuration: both requests about to run their pre-check. -/
def startConf (db : DB) : Conf :=
  { db := db,
    a := { pc := .atCheck, res := none },
    b := { pc := .atCheck, res := none },
    aPend := false, bPend := false }

/-- Run a whole schedule. -/
def exec (M : Nat) (v : String) : List Bool → Conf → Conf
  | [], c => c
  | w :: ws, c => exec M v ws (step M v w c)

/-- Number of committed ledger rows for the pair. -/
def rowsMV (M : Nat) (v : String) (db : DB) : Nat :=
  (selectReflection M v db).length

/-- Reachability invariant of the interleaving model, relative to the initial
counter value c0 of the message. -/
structure ReachInv (M : Nat) (v : String) (c0 : Nat) (c : Conf) : Prop where
  hasMsg : hasMessage M c.db = true
  counter : counterOf M c.db = c0 + rowsMV M v c.db
  uniq : rowsMV M v c.db + c.aPend.toNat + c.bPend.toNat ≤ 1
  aPendPc : c.aPend = true ↔ (c.a.pc = .atUpdate ∨ c.a.pc = .atCommit)
  bPendPc : c.bPend = true ↔ (c.b.pc = .atUpdate ∨ c.b.pc = .atCommit)
  aFin : c.a.pc = .finished → rowsMV M v c.db = 1
  bFin : c.b.pc = .finished → rowsMV M v c.db = 1

/-- Swapping the two sessions of a configuration. -/
def swapConf (c : Conf) : Conf :=
  { db := c.db, a := c.b, b := c.a, aPend := c.bPend, bPend := c.aPend }

/-- Reading of claim C10, following its words: the identity is the first
comma-separated element of the forwarded header whenever the header is
present, otherwise the request IP when present, otherwise unknown. -/
def claimClientIp (xff reqIp : Option String) : String :=
  match xff with
  | some h => (jsSplit (Char.ofNat 44) h).headD ""
  | none =>
    match reqIp with
    | some ip => ip
    | none => "unknown"

/-- A one-message database used by the concrete witnesses. -/
def sampleDB : DB := insertMessage "hello world" "Honest Message" "Anonymous" 0 emptyDB

/-! ### Helper lemmas -/

/-- A filtered list is empty exactly when no element satisfies the predicate. -/
theorem filter_eq_nil_iff_any_eq_false {α : Type} (p : α → Bool) (l : List α) :
    l.filter p = [] ↔ l.any p = false := by
  induction l with
  | nil => simp
  | cons x xs ih =>
    by_cases h : p x <;> simp [List.filter_cons, h, ih]

/-- The per-id increment map never changes a message id. -/
theorem incr_preserves_id (mid : Nat) (m : Message) :
    (if m.id == mid then { m with reflection_count := m.reflection_count + 1 } else m).id
      = m.id := by
  by_cases h : (m.id == mid) = true
  · rw [if_pos h]
  · rw [if_neg h]

/-- Finding a message after the per-id increment map is finding it before and
incrementing. -/
theorem find?_increment (mid : Nat) (l : List Message) :
    (l.map (fun m =>
        if m.id == mid then { m with reflection_count := m.reflection_count + 1 } else m)).find?
        (fun m => m.id == mid)
      = (l.find? (fun m => m.id == mid)).map
          (fun m => { m with reflection_count := m.reflection_count + 1 }) := by
  induction l with
  | nil => rfl
  | cons m ms ih =>
    rw [List.map_cons, List.find?_cons, List.find?_cons, incr_preserves_id]
    cases hb : (m.id == mid) with
    | true => simp [hb]
    | false =>
      simp only [hb]
      exact ih

/-- The UPDATE leaves every existence check on messages unchanged. -/
theorem hasMessage_updateIncrement (mid mid2 : Nat) (db : DB) :
    hasMessage mid2 (updateIncrement mid db) = hasMessage mid2 db := by
  unfold hasMessage updateIncrement
  rw [List.any_map]
  have hc : ((fun (m : Message) => m.id == mid2) ∘ (fun m =>
      if m.id == mid then { m with reflection_count := m.reflection_count + 1 } else m))
      = (fun m => m.id == mid2) := by
    funext m
    simp only [Function.comp_apply, incr_preserves_id]
  rw [hc]

/-- The UPDATE adds exactly one to the counter read back for the same id,
provided the message exists. -/
theorem counterOf_updateIncrement (mid : Nat) (db : DB)
    (h : hasMessage mid db = true) :
    counterOf mid (updateIncrement mid db) = counterOf mid db + 1 := by
  unfold counterOf updateIncrement
  simp only
  rw [find?_increment]
  cases hf : db.messages.find? (fun m => m.id == mid) with
  | none =>
    exfalso
    unfold hasMessage at h
    rw [List.any_eq_true] at h
    obtain ⟨m, hm, hp⟩ := h
    have hnone := List.find?_eq_none.mp hf m hm
    exact hnone hp
  | some m => simp

/-- Characterization of a successful ledger INSERT. -/
theorem insertReflection_ok (mid : Nat) (ip : String) (db db1 : DB)
    (h : insertReflection mid ip db = .ok db1) :
    hasMessage mid db = true ∧
    db.reflections.any (fun r => r.message_id == mid && r.user_ip == ip) = false ∧
    db1 = { db with
      reflections := db.reflections ++
        [{ id := db.nextReflectionId, message_id := mid, user_ip := ip }],
      nextReflectionId := db.nextReflectionId + 1 } := by
  unfold insertReflection at h
  split_ifs at h with h1 h2
  exact ⟨by simpa using h1, by simpa using h2, (Except.ok.inj h).symm⟩

/-- Characterization of a failing ledger INSERT when the message exists: the
only possible error is the uniqueness violation, signalled by a matching row. -/
theorem insertReflection_error (mid : Nat) (ip : String) (db : DB) (e : SqlError)
    (h : insertReflection mid ip db = .error e)
    (hm : hasMessage mid db = true) :
    e = .uniqueViolation ∧
    db.reflections.any (fun r => r.message_id == mid && r.user_ip == ip) = true := by
  unfold insertReflection at h
  split_ifs at h with h1 h2
  · rw [hm] at h1
    simp at h1
  · exact ⟨(Except.error.inj h).symm, h2⟩

/-- The pre-check list is empty exactly when the any-scan of the ledger for the
pair fails. -/
theorem selectReflection_eq_nil_iff (mid : Nat) (ip : String) (db : DB) :
    selectReflection mid ip db = [] ↔
      db.reflections.any (fun r => r.message_id == mid && r.user_ip == ip) = false := by
  unfold selectReflection
  exact filter_eq_nil_iff_any_eq_false _ _

/-- When the pre-check finds a row, the handler answers already-reflected and
leaves the database untouched. -/
theorem registerReflection_already (M : Nat) (v : String) (db : DB)
    (hne : selectReflection M v db ≠ []) :
    registerReflection M v db = (.alreadyReflected, db) := by
  unfold registerReflection
  rw [if_pos (List.length_pos.mpr hne)]

/-- When the pre-check finds nothing and the ledger INSERT fails, the handler
answers the 500 database error and the rollback leaves the database
untouched. -/
theorem registerReflection_fail (M : Nat) (v : String) (db : DB) (e : SqlError)
    (h0 : selectReflection M v db = []) (he : insertReflection M v db = .error e) :
    registerReflection M v db = (.dbError, db) := by
  unfold registerReflection
  rw [if_neg (by rw [h0]; simp), he]
  rfl

/-- When the pre-check finds nothing, the message exists and the INSERT
succeeds, the handler answers the post-increment counter and commits the new
ledger row together with the increment. -/
theorem registerReflection_success (M : Nat) (v : String) (db : DB)
    (hm : hasMessage M db = true) (h0 : selectReflection M v db = []) :
    registerReflection M v db =
      (.registered (counterOf M db + 1),
       updateIncrement M { db with
         reflections := db.reflections ++
           [{ id := db.nextReflectionId, message_id := M, user_ip := v }],
         nextReflectionId := db.nextReflectionId + 1 }) := by
  have hany : db.reflections.any (fun r => r.message_id == M && r.user_ip == v) = false :=
    (selectReflection_eq_nil_iff M v db).mp h0
  have hins : insertReflection M v db = .ok { db with
      reflections := db.reflections ++
        [{ id := db.nextReflectionId, message_id := M, user_ip := v }],
      nextReflectionId := db.nextReflectionId + 1 } := by
    unfold insertReflection
    rw [hm, hany]
    rfl
  have hcnt : counterOf M (updateIncrement M { db with
      reflections := db.reflections ++
        [{ id := db.nextReflectionId, message_id := M, user_ip := v }],
      nextReflectionId := db.nextReflectionId + 1 }) = counterOf M db + 1 := by
    have hm2 : hasMessage M { db with
        reflections := db.reflections ++
          [{ id := db.nextReflectionId, message_id := M, user_ip := v }],
        nextReflectionId := db.nextReflectionId + 1 } = true := hm
    rw [counterOf_updateIncrement M _ hm2]
    rfl
  unfold registerReflection
  rw [if_neg (by rw [h0]; simp)]
  simp only [hins]
  rw [hcnt]

/-- The UPDATE does not touch the ledger. -/
theorem ledgerCount_updateIncrement (x mid : Nat) (db : DB) :
    ledgerCount x (updateIncrement mid db) = ledgerCount x db := rfl

/-- Appending one ledger row adds one to the ledger count of its message and
nothing to any other. -/
theorem ledgerCount_append (x : Nat) (row : Reflection) (db : DB) :
    ledgerCount x { db with
        reflections := db.reflections ++ [row],
        nextReflectionId := db.nextReflectionId + 1 }
      = ledgerCount x db + (if row.message_id == x then 1 else 0) := by
  unfold ledgerCount
  show ((db.reflections ++ [row]).filter fun r => r.message_id == x).length = _
  rw [List.filter_append, List.length_append]
  congr 1
  by_cases hp : (row.message_id == x) = true <;> simp [List.filter_cons, hp]

/-- Committing one ledger row for message M together with the increment of
its counter preserves the counter invariant. -/
theorem counterInvariant_commit (M : Nat) (v : String) (db : DB)
    (h : counterInvariant db = true) :
    counterInvariant (updateIncrement M { db with
      reflections := db.reflections ++
        [{ id := db.nextReflectionId, message_id := M, user_ip := v }],
      nextReflectionId := db.nextReflectionId + 1 }) = true := by
  unfold counterInvariant at h ⊢
  rw [List.all_eq_true] at h ⊢
  intro m' hm'
  have hm'' : m' ∈ db.messages.map (fun m =>
      if m.id == M then { m with reflection_count := m.reflection_count + 1 } else m) := hm'
  rw [List.mem_map] at hm''
  obtain ⟨m, hmem, heq⟩ := hm''
  have hbase : m.reflection_count = ledgerCount m.id db := by
    have := h m hmem
    exact eq_of_beq (by simpa using this)
  have hledger : ∀ x : Nat, ledgerCount x (updateIncrement M { db with
      reflections := db.reflections ++
        [{ id := db.nextReflectionId, message_id := M, user_ip := v }],
      nextReflectionId := db.nextReflectionId + 1 })
      = ledgerCount x db + (if M == x then 1 else 0) := by
    intro x
    rw [ledgerCount_updateIncrement, ledgerCount_append]
  rw [← heq]
  by_cases hid : (m.id == M) = true
  · have hid' : m.id = M := by simpa using hid
    rw [if_pos hid]
    simp only [hledger]
    simp [hid', hbase]
  · have hne : ¬ m.id = M := by simpa using hid
    rw [if_neg hid]
    simp only [hledger]
    have hMm : (M == m.id) = false := by
      simp only [beq_eq_false_iff_ne, ne_eq]
      exact fun hc => hne hc.symm
    simp [hMm, hbase]

/-- Claim C4: atomicity of registration.  Every completed registerReflection
call either leaves the database exactly as it was, or commits both effects at
once: the ledger grows by exactly one row and the counter read back for the
message grows by exactly one.  In particular every failing statement inside
the transaction leaves the visible state unchanged. -/
theorem registerReflection_atomic (M : Nat) (v : String) (db : DB) :
    (registerReflection M v db).2 = db ∨
    ((registerReflection M v db).2.reflections.length = db.reflections.length + 1 ∧
     counterOf M (registerReflection M v db).2 = counterOf M db + 1) := by
  by_cases hpre : selectReflection M v db = []
  · cases hins : insertReflection M v db with
    | error e =>
      left
      rw [registerReflection_fail M v db e hpre hins]
    | ok db1 =>
      right
      obtain ⟨hm, hany, hdb1⟩ := insertReflection_ok M v db db1 hins
      rw [registerReflection_success M v db hm hpre]
      constructor
      · show (updateIncrement M _).reflections.length = _
        simp [updateIncrement]
      · have hm2 : hasMessage M { db with
            reflections := db.reflections ++
              [{ id := db.nextReflectionId, message_id := M, user_ip := v }],
            nextReflectionId := db.nextReflectionId + 1 } = true := hm
        show counterOf M (updateIncrement M _) = _
        rw [counterOf_updateIncrement M _ hm2]
        rfl
  · left
    rw [registerReflection_already M v db hpre]

/-- Claim C1, counterexample: database initialization on an empty store seeds
messages whose reflection_count is positive while the ledger is empty, so the
counter invariant does not hold at the quiescent point right after
initialization. -/
theorem seeding_violates_counter_invariant :
    counterInvariant (initializeDatabase emptyDB) = false := by decide

/-- Claim C1, amended: registerReflection preserves the counter invariant (for
every database satisfying it, the database it leaves behind satisfies it
again); initialization with its seeding, however, violates the invariant, as
the counterexample shows. -/
theorem registerReflection_preserves_counter_invariant (M : Nat) (v : String)
    (db : DB) (h : counterInvariant db = true) :
    counterInvariant (registerReflection M v db).2 = true := by
  by_cases hpre : selectReflection M v db = []
  · cases hins : insertReflection M v db with
    | error e =>
      rw [registerReflection_fail M v db e hpre hins]
      exact h
    | ok db1 =>
      obtain ⟨hm, hany, hdb1⟩ := insertReflection_ok M v db db1 hins
      rw [registerReflection_success M v db hm hpre]
      exact counterInvariant_commit M v db h
  · rw [registerReflection_already M v db hpre]
    exact h

/-- Claim C1, witness for the amended theorem at a concrete input. -/
theorem registerReflection_preserves_counter_invariant_witness :
    counterInvariant (registerReflection 1 "203.0.113.5" sampleDB).2 = true :=
  registerReflection_preserves_counter_invariant 1 "203.0.113.5" sampleDB (by decide)

/-- Claim C6: result contract of registerReflection.  For an existing message,
a first-time registration answers the post-increment counter (the prior count
plus one); when a reflection for the pair already exists, the handler answers
the distinct already-reflected indicator, which carries no count, and leaves
the database (hence the counter) untouched. -/
theorem registerReflection_result_contract (M : Nat) (v : String) (db : DB)
    (hm : hasMessage M db = true) :
    (selectReflection M v db = [] →
        (registerReflection M v db).1 = .registered (counterOf M db + 1))
    ∧ (selectReflection M v db ≠ [] →
        registerReflection M v db = (.alreadyReflected, db)) := by
  constructor
  · intro h0
    rw [registerReflection_success M v db hm h0]
  · intro hne
    exact registerReflection_already M v db hne

/-- Claim C6, witness: on a one-message database the first registration
answers the count one. -/
theorem registerReflection_result_contract_witness :
    (registerReflection 1 "203.0.113.5" sampleDB).1 = .registered 1 := by
  have h := (registerReflection_result_contract 1 "203.0.113.5" sampleDB
    (by decide)).1 (by decide)
  rw [h]
  decide

/-- Claim C5: sequential idempotence.  For an existing message with no prior
reflection by the voter, the first call answers Registered with some count n,
the second call answers the already-reflected indicator changing nothing, and
the counter of the message equals n after both calls. -/
theorem registerReflection_sequential_idempotent (M : Nat) (v : String) (db : DB)
    (hm : hasMessage M db = true) (h0 : selectReflection M v db = []) :
    ∃ n, (registerReflection M v db).1 = .registered n
      ∧ registerReflection M v (registerReflection M v db).2
          = (.alreadyReflected, (registerReflection M v db).2)
      ∧ counterOf M (registerReflection M v db).2 = n := by
  have hs := registerReflection_success M v db hm h0
  refine ⟨counterOf M db + 1, by rw [hs], ?_, ?_⟩
  · apply registerReflection_already
    rw [hs]
    show selectReflection M v (updateIncrement M _) ≠ []
    unfold selectReflection updateIncrement
    simp [List.filter_append]
  · rw [hs]
    show counterOf M (updateIncrement M _) = _
    have hm2 : hasMessage M { db with
        reflections := db.reflections ++
          [{ id := db.nextReflectionId, message_id := M, user_ip := v }],
        nextReflectionId := db.nextReflectionId + 1 } = true := hm
    rw [counterOf_updateIncrement M _ hm2]
    rfl

/-- Claim C5, witness at a concrete database. -/
theorem registerReflection_sequential_idempotent_witness :
    ∃ n, (registerReflection 1 "203.0.113.5" sampleDB).1 = .registered n
      ∧ registerReflection 1 "203.0.113.5"
            (registerReflection 1 "203.0.113.5" sampleDB).2
          = (.alreadyReflected, (registerReflection 1 "203.0.113.5" sampleDB).2)
      ∧ counterOf 1 (registerReflection 1 "203.0.113.5" sampleDB).2 = n :=
  registerReflection_sequential_idempotent 1 "203.0.113.5" sampleDB
    (by decide) (by decide)

/-- Claim C8: message submission requires non-empty trimmed text.  A missing
message or one whose trimmed form is empty is rejected with the empty-input
redirect and nothing is inserted; otherwise the stored text is the trimmed
input and is non-empty. -/
theorem share_requires_nonempty_text (msg cat auth : Option String) (db : DB) :
    ((msg = none ∨ ∃ s, msg = some s ∧ (jsTrim s).length = 0) →
        postShare msg cat auth db = (.redirectShareEmpty, db))
    ∧ (∀ s, msg = some s → (jsTrim s).length ≠ 0 →
        (postShare msg cat auth db).1 = .redirectSuccess ∧
        ∃ row, (postShare msg cat auth db).2.messages = db.messages ++ [row] ∧
          row.text = jsTrim s ∧ row.text ≠ "") := by
  constructor
  · rintro (rfl | ⟨s, rfl, hlen⟩)
    · rfl
    · simp only [postShare]
      by_cases hs : s = ""
      · rw [if_pos hs]
      · rw [if_neg hs, if_pos hlen]
  · rintro s rfl hlen
    have hs : ¬ s = "" := by
      intro hcon
      apply hlen
      rw [hcon]
      rfl
    have htrim : jsTrim s ≠ "" := by
      intro hcon
      apply hlen
      rw [hcon]
      rfl
    simp only [postShare]
    rw [if_neg hs, if_neg hlen]
    exact ⟨rfl, ⟨{ id := db.nextMessageId,
                   text := jsTrim s,
                   category := cat.getD "Honest Message",
                   author := if jsTrim (auth.getD "Anonymous") = "" then "Anonymous"
                     else jsTrim (auth.getD "Anonymous"),
                   reflection_count := 0 }, rfl, rfl, htrim⟩⟩

/-- Claim C8, witness: a whitespace-only submission is rejected, a real one
stores the trimmed text. -/
theorem share_requires_nonempty_text_witness :
    postShare (some "   ") none none emptyDB = (.redirectShareEmpty, emptyDB) ∧
    (postShare (some " hi ") none none emptyDB).1 = .redirectSuccess :=
  ⟨(share_requires_nonempty_text (some "   ") none none emptyDB).1
      (Or.inr ⟨"   ", rfl, by decide⟩),
   ((share_requires_nonempty_text (some " hi ") none none emptyDB).2
      " hi " rfl (by decide)).1⟩

/-- Claim C9: default display strings.  For a valid submission, each absent
field falls back independently of the other: with the category field absent
(and the author field arbitrary) the stored row carries the category Honest
Message, and with the author field absent (and the category field arbitrary)
the stored row carries the author Anonymous.  A submission with both absent
is the instance common to the two parts. -/
theorem share_default_fields (s : String) (cat auth : Option String) (db : DB)
    (h : (jsTrim s).length ≠ 0) :
    (∃ row, (postShare (some s) none auth db).2.messages = db.messages ++ [row] ∧
      row.category = "Honest Message")
    ∧ (∃ row, (postShare (some s) cat none db).2.messages = db.messages ++ [row] ∧
      row.author = "Anonymous") := by
  have hs : ¬ s = "" := by
    intro hcon
    apply h
    rw [hcon]
    rfl
  constructor
  · simp only [postShare]
    rw [if_neg hs, if_neg h]
    exact ⟨{ id := db.nextMessageId,
             text := jsTrim s,
             category := "Honest Message",
             author := if jsTrim (auth.getD "Anonymous") = "" then "Anonymous"
               else jsTrim (auth.getD "Anonymous"),
             reflection_count := 0 }, rfl, rfl⟩
  · simp only [postShare]
    rw [if_neg hs, if_neg h]
    exact ⟨{ id := db.nextMessageId,
             text := jsTrim s,
             category := cat.getD "Honest Message",
             author := "Anonymous",
             reflection_count := 0 }, rfl, rfl⟩

/-- Claim C9, witness at concrete mixed submissions: author present with
category absent, and category present with author absent. -/
theorem share_default_fields_witness :
    (∃ row, (postShare (some "hello") none (some "maya") emptyDB).2.messages
        = emptyDB.messages ++ [row] ∧ row.category = "Honest Message")
    ∧ (∃ row, (postShare (some "hello") (some "Gratitude") none emptyDB).2.messages
        = emptyDB.messages ++ [row] ∧ row.author = "Anonymous") :=
  ⟨(share_default_fields "hello" (some "Gratitude") (some "maya") emptyDB (by decide)).1,
   (share_default_fields "hello" (some "Gratitude") (some "maya") emptyDB (by decide)).2⟩

/-- Claim C10, counterexample: with the forwarded header present but its first
comma-separated element empty, the code falls through to the request IP,
while the claim wording prescribes the (empty) first element. -/
theorem getClientIp_deviates_from_claim :
    getClientIp (some ",203.0.113.5") (some "9.9.9.9") = "9.9.9.9" ∧
    claimClientIp (some ",203.0.113.5") (some "9.9.9.9") = "" ∧
    ("9.9.9.9" : String) ≠ "" := by decide

/-- Unfolding getClientIp at a present header. -/
theorem getClientIp_some (h : String) (rip : Option String) :
    getClientIp (some h) rip =
      (jsOr (jsOr (some ((jsSplit (Char.ofNat 44) h).headD "")) rip)
        (some "unknown")).getD "unknown" := rfl

/-- Unfolding getClientIp at an absent header. -/
theorem getClientIp_none (rip : Option String) :
    getClientIp none rip =
      (jsOr (jsOr none rip) (some "unknown")).getD "unknown" := rfl

/-- A truthy left operand wins the or-else. -/
theorem jsOr_truthy (a b : Option String) (h : jsTruthy a = true) :
    jsOr a b = a := by
  simp [jsOr, h]

/-- A falsy left operand yields the right operand. -/
theorem jsOr_falsy (a b : Option String) (h : jsTruthy a = false) :
    jsOr a b = b := by
  simp [jsOr, h]

/-- Claim C10, amended: the identity is the first comma-separated element of
the forwarded header when the header is present and that element is
non-empty; otherwise it falls back to the request IP when that is present and
non-empty; otherwise it is the literal unknown — in particular all requesters
lacking both a usable header and a request IP share the single identity
unknown. -/
theorem getClientIp_characterized (h ip : String) :
    ((jsSplit (Char.ofNat 44) h).headD "" ≠ "" →
        getClientIp (some h) (some ip) = (jsSplit (Char.ofNat 44) h).headD ""
      ∧ getClientIp (some h) none = (jsSplit (Char.ofNat 44) h).headD "")
    ∧ ((jsSplit (Char.ofNat 44) h).headD "" = "" → ip ≠ "" →
        getClientIp (some h) (some ip) = ip ∧ getClientIp none (some ip) = ip)
    ∧ ((jsSplit (Char.ofNat 44) h).headD "" = "" →
        getClientIp (some h) none = "unknown"
      ∧ getClientIp (some h) (some "") = "unknown")
    ∧ getClientIp none none = "unknown"
    ∧ getClientIp none (some "") = "unknown" := by
  refine ⟨fun hne => ?_, fun he hip => ?_, fun he => ?_, by decide, by decide⟩
  · have ht : jsTruthy (some ((jsSplit (Char.ofNat 44) h).headD "")) = true := by
      simpa [jsTruthy] using hne
    constructor
    · rw [getClientIp_some, jsOr_truthy _ _ ht, jsOr_truthy _ _ ht]
      rfl
    · rw [getClientIp_some, jsOr_truthy _ _ ht, jsOr_truthy _ _ ht]
      rfl
  · have hf : jsTruthy (some ((jsSplit (Char.ofNat 44) h).headD "")) = false := by
      simpa [jsTruthy] using he
    have hti : jsTruthy (some ip) = true := by
      simpa [jsTruthy] using hip
    constructor
    · rw [getClientIp_some, jsOr_falsy _ _ hf, jsOr_truthy _ _ hti]
      rfl
    · rw [getClientIp_none, jsOr_falsy none _ rfl, jsOr_truthy _ _ hti]
      rfl
  · have hf : jsTruthy (some ((jsSplit (Char.ofNat 44) h).headD "")) = false := by
      simpa [jsTruthy] using he
    constructor
    · rw [getClientIp_some, jsOr_falsy _ _ hf, jsOr_falsy none _ rfl]
      rfl
    · rw [getClientIp_some, jsOr_falsy _ _ hf, jsOr_falsy (some "") _ (by decide)]
      rfl

/-- Claim C10, witness for the amended characterization. -/
theorem getClientIp_characterized_witness :
    getClientIp (some "1.2.3.4,5.6.7.8") (some "9.9.9.9") = "1.2.3.4" ∧
    getClientIp (some "") (some "9.9.9.9") = "9.9.9.9" := by
  constructor
  · have hh := ((getClientIp_characterized "1.2.3.4,5.6.7.8" "9.9.9.9").1
      (by decide)).1
    rw [hh]
    decide
  · exact ((getClientIp_characterized "" "9.9.9.9").2.1 (by decide) (by decide)).1

/-- Claim C3: calling the handler with a message id that references no message
does not produce any NotFound outcome; the ledger INSERT violates the foreign
key, the generic catch block fires, and the code answers the 500 database
error with no rows written (the claim and the spec prescribe NotFound
instead, which the spec itself flags as a bug in the current behavior). -/
theorem missing_message_yields_500 :
    registerReflection 42 "203.0.113.5" (initializeDatabase emptyDB)
        = (.dbError, initializeDatabase emptyDB) ∧
    statusOf (registerReflection 42 "203.0.113.5" (initializeDatabase emptyDB)).1 = 500 ∧
    statusOf (registerReflection 42 "203.0.113.5" (initializeDatabase emptyDB)).1 ≠ 404 := by
  decide

/-- Bool.toNat of true. -/
theorem toNat_true : (true : Bool).toNat = 1 := rfl

/-- Bool.toNat of false. -/
theorem toNat_false : (false : Bool).toNat = 0 := rfl

/-- The pair count is zero exactly when the any-scan fails. -/
theorem rowsMV_eq_zero_iff (M : Nat) (v : String) (db : DB) :
    rowsMV M v db = 0 ↔
      db.reflections.any (fun r => r.message_id == M && r.user_ip == v) = false := by
  unfold rowsMV
  rw [List.length_eq_zero, selectReflection_eq_nil_iff]

/-- Committing one row for the pair adds exactly one pair row. -/
theorem rowsMV_commit (M : Nat) (v : String) (db : DB) :
    rowsMV M v (updateIncrement M { db with
      reflections := db.reflections ++
        [{ id := db.nextReflectionId, message_id := M, user_ip := v }],
      nextReflectionId := db.nextReflectionId + 1 }) = rowsMV M v db + 1 := by
  unfold rowsMV selectReflection updateIncrement
  simp [List.filter_append]

/-- Committing one row for the pair adds exactly one to the counter of an
existing message. -/
theorem counterOf_commit (M : Nat) (v : String) (db : DB)
    (hm : hasMessage M db = true) :
    counterOf M (updateIncrement M { db with
      reflections := db.reflections ++
        [{ id := db.nextReflectionId, message_id := M, user_ip := v }],
      nextReflectionId := db.nextReflectionId + 1 }) = counterOf M db + 1 := by
  have hm2 : hasMessage M { db with
      reflections := db.reflections ++
        [{ id := db.nextReflectionId, message_id := M, user_ip := v }],
      nextReflectionId := db.nextReflectionId + 1 } = true := hm
  rw [counterOf_updateIncrement M _ hm2]
  rfl

/-- Committing preserves existence of the message. -/
theorem hasMessage_commit (M : Nat) (v : String) (db : DB)
    (hm : hasMessage M db = true) :
    hasMessage M (updateIncrement M { db with
      reflections := db.reflections ++
        [{ id := db.nextReflectionId, message_id := M, user_ip := v }],
      nextReflectionId := db.nextReflectionId + 1 }) = true := by
  rw [hasMessage_updateIncrement]
  exact hm

/-- Swapping the sessions preserves the reachability invariant. -/
theorem reachInv_swap (M : Nat) (v : String) (c0 : Nat) (c : Conf)
    (h : ReachInv M v c0 c) : ReachInv M v c0 (swapConf c) := by
  refine ⟨h.hasMsg, h.counter, ?_, h.bPendPc, h.aPendPc, h.bFin, h.aFin⟩
  show rowsMV M v c.db + c.bPend.toNat + c.aPend.toNat ≤ 1
  have hu := h.uniq
  omega

/-- Stepping session b is stepping session a in the swapped configuration. -/
theorem step_false_eq_swap (M : Nat) (v : String) (c : Conf) :
    step M v false c = swapConf (step M v true (swapConf c)) := rfl

/-- One scheduler step on session a preserves the reachability invariant. -/
theorem reachInv_step_a (M : Nat) (v : String) (c0 : Nat) (c : Conf)
    (h : ReachInv M v c0 c) : ReachInv M v c0 (step M v true c) := by
  obtain ⟨db, ⟨apc, ares⟩, b, aP, bP⟩ := c
  obtain ⟨hasMsg, counter, uniq, aPendPc, bPendPc, aFin, bFin⟩ := h
  dsimp only at hasMsg counter uniq aPendPc bPendPc aFin bFin
  cases apc with
  | atCheck =>
    have haPf : aP = false := by
      cases aP
      · rfl
      · exact absurd (aPendPc.mp rfl) (by simp)
    simp only [step, sessStep]
    by_cases hsel : (selectReflection M v db).length > 0
    · rw [if_pos hsel]
      have hrows : rowsMV M v db = 1 := by
        have h1 : 0 < rowsMV M v db := hsel
        have hu : rowsMV M v db + aP.toNat + bP.toNat ≤ 1 := uniq
        omega
      refine ⟨hasMsg, counter, uniq, ?_, bPendPc, fun _ => hrows, bFin⟩
      rw [haPf]
      simp
    · rw [if_neg hsel]
      refine ⟨hasMsg, counter, uniq, ?_, bPendPc, fun hc => absurd hc (by simp), bFin⟩
      rw [haPf]
      simp
  | atInsert =>
    have haPf : aP = false := by
      cases aP
      · rfl
      · exact absurd (aPendPc.mp rfl) (by simp)
    cases hins : insertReflection M v db with
    | error e =>
      simp only [step, sessStep]
      rw [hins]
      have hany := (insertReflection_error M v db e hins hasMsg).2
      have hrows : rowsMV M v db = 1 := by
        have hne : rowsMV M v db ≠ 0 := by
          intro h0
          rw [rowsMV_eq_zero_iff] at h0
          rw [h0] at hany
          simp at hany
        have hu : rowsMV M v db + aP.toNat + bP.toNat ≤ 1 := uniq
        omega
      refine ⟨hasMsg, counter, uniq, ?_, bPendPc, fun _ => hrows, bFin⟩
      rw [haPf]
      simp
    | ok db1 =>
      simp only [step, sessStep]
      rw [hins]
      cases bP with
      | true =>
        rw [if_pos rfl]
        exact ⟨hasMsg, counter, uniq, aPendPc, bPendPc,
          fun hc => absurd hc (by simp), bFin⟩
      | false =>
        rw [if_neg (by simp)]
        obtain ⟨_, hany, _⟩ := insertReflection_ok M v db db1 hins
        have hrows0 : rowsMV M v db = 0 := (rowsMV_eq_zero_iff M v db).mpr hany
        refine ⟨hasMsg, counter, ?_, ?_, bPendPc,
          fun hc => absurd hc (by simp), bFin⟩
        · show rowsMV M v db + (true : Bool).toNat + (false : Bool).toNat ≤ 1
          rw [hrows0, toNat_true, toNat_false]
        · simp
  | atUpdate =>
    have haPt : aP = true := aPendPc.mpr (Or.inl rfl)
    simp only [step, sessStep]
    refine ⟨hasMsg, counter, uniq, ?_, bPendPc,
      fun hc => absurd hc (by simp), bFin⟩
    rw [haPt]
    simp
  | atCommit =>
    have haPt : aP = true := aPendPc.mpr (Or.inr rfl)
    subst haPt
    cases bP with
    | true =>
      exfalso
      have hu : rowsMV M v db + (true : Bool).toNat + (true : Bool).toNat ≤ 1 := uniq
      rw [toNat_true] at hu
      omega
    | false =>
      have hrows0 : rowsMV M v db = 0 := by
        have hu : rowsMV M v db + (true : Bool).toNat + (false : Bool).toNat ≤ 1 := uniq
        rw [toNat_true, toNat_false] at hu
        omega
      simp only [step, sessStep]
      refine ⟨?_, ?_, ?_, ?_, bPendPc, ?_, ?_⟩
      · exact hasMessage_commit M v db hasMsg
      · rw [counterOf_commit M v db hasMsg, rowsMV_commit, counter]
        omega
      · rw [rowsMV_commit, hrows0, toNat_false]
      · simp
      · intro _
        rw [rowsMV_commit, hrows0]
      · intro hb
        rw [rowsMV_commit, hrows0]
  | finished =>
    simp only [step, sessStep]
    exact ⟨hasMsg, counter, uniq, aPendPc, bPendPc, aFin, bFin⟩

/-- Any scheduler step preserves the reachability invariant. -/
theorem reachInv_step (M : Nat) (v : String) (c0 : Nat) (who : Bool) (c : Conf)
    (h : ReachInv M v c0 c) : ReachInv M v c0 (step M v who c) := by
  cases who with
  | true => exact reachInv_step_a M v c0 c h
  | false =>
    rw [step_false_eq_swap]
    exact reachInv_swap M v c0 _
      (reachInv_step_a M v c0 _ (reachInv_swap M v c0 c h))

/-- The invariant is preserved along any schedule. -/
theorem reachInv_exec (M : Nat) (v : String) (c0 : Nat) (sched : List Bool)
    (c : Conf) (h : ReachInv M v c0 c) :
    ReachInv M v c0 (exec M v sched c) := by
  induction sched generalizing c with
  | nil => exact h
  | cons w ws ih => exact ih _ (reachInv_step M v c0 w c h)

/-- The invariant holds initially when the message exists and the pair has no
prior ledger row. -/
theorem reachInv_start (M : Nat) (v : String) (db : DB)
    (hm : hasMessage M db = true) (h0 : selectReflection M v db = []) :
    ReachInv M v (counterOf M db) (startConf db) := by
  have hrows0 : rowsMV M v db = 0 := by
    unfold rowsMV
    rw [h0]
    rfl
  refine ⟨hm, ?_, ?_, ?_, ?_, ?_, ?_⟩
  · show counterOf M db = counterOf M db + rowsMV M v db
    rw [hrows0]
    omega
  · show rowsMV M v db + (false : Bool).toNat + (false : Bool).toNat ≤ 1
    rw [hrows0, toNat_false]
    omega
  · simp [startConf]
  · simp [startConf]
  · intro hc
    exact absurd hc (by simp [startConf])
  · intro hc
    exact absurd hc (by simp [startConf])

/-- Claim C7: concurrency correctness.  For any interleaving of two concurrent
registerReflection calls with the same existing message and voter identity
(and no prior ledger row for the pair), once both sessions have finished the
database holds exactly one ledger row for the pair and the counter of the
message was incremented exactly once — never zero times and never twice —
with the ledger uniqueness constraint blocking the losing insert. -/
theorem concurrent_registration_exactly_once (M : Nat) (v : String) (db : DB)
    (sched : List Bool) (hm : hasMessage M db = true)
    (h0 : selectReflection M v db = []) :
    (exec M v sched (startConf db)).a.pc = .finished →
    (exec M v sched (startConf db)).b.pc = .finished →
    rowsMV M v (exec M v sched (startConf db)).db = 1 ∧
    counterOf M (exec M v sched (startConf db)).db = counterOf M db + 1 := by
  intro ha _hb
  have hinv := reachInv_exec M v (counterOf M db) sched (startConf db)
    (reachInv_start M v db hm h0)
  have h1 := hinv.aFin ha
  refine ⟨h1, ?_⟩
  rw [hinv.counter, h1]

/-- Claim C7, witness: a concrete complete schedule in which session a wins
and session b observes the committed row at its pre-check. -/
theorem concurrent_registration_exactly_once_witness :
    rowsMV 1 "203.0.113.5" (exec 1 "203.0.113.5" [true, true, true, true, false]
        (startConf sampleDB)).db = 1 ∧
    counterOf 1 (exec 1 "203.0.113.5" [true, true, true, true, false]
        (startConf sampleDB)).db = counterOf 1 sampleDB + 1 :=
  concurrent_registration_exactly_once 1 "203.0.113.5" sampleDB
    [true, true, true, true, false] (by decide) (by decide) (by decide) (by decide)

/-- Claim C2: the catch block of the handler maps every storage error —
the uniqueness violation of a lost race included — to the same generic 500
database-error answer; it does not distinguish the constraint violation and
never produces the idempotent already-registered outcome from it.  In the
concrete interleaving below session b passes its pre-check, blocks behind
session a, and its INSERT then raises the uniqueness violation: b answers
the 500 error, not already-registered as the claim prescribes. -/
theorem race_loser_answers_500 :
    (∀ e : SqlError, catchHandler e = .dbError ∧ statusOf (catchHandler e) = 500) ∧
    (exec 1 "203.0.113.5" [true, true, false, true, true, false]
        (startConf sampleDB)).a.res = some (.registered 1) ∧
    (exec 1 "203.0.113.5" [true, true, false, true, true, false]
        (startConf sampleDB)).b.res = some .dbError ∧
    (exec 1 "203.0.113.5" [true, true, false, true, true, false]
        (startConf sampleDB)).b.res ≠ some .alreadyReflected := by
  refine ⟨fun e => ⟨rfl, rfl⟩, ?_, ?_, ?_⟩ <;> decide
